import Mathlib

/-!
Shallow embedding of `src/easyFig.py` (functions `plot_line` and `plot_bar`).

Python values that can appear as the `data` / `x_data` / keyword arguments of
the two renderers are modelled by the inductive type `PyVal` (numbers are
rationals; numpy arrays of numbers are modelled as lists of rationals).
Each renderer is embedded as a pure function that returns the sequence of
draw-primitive calls it would issue (`ax.plot` / `ax.bar`), together with the
`series_names` variable that drives the legend logic, or the Python error it
raises.  The shared legend block (easyFig.py lines 117-124 and 316-323) and
the shared save block (lines 133-141 and 332-340) are embedded once as
`legendEffects` and `saveEffects`.
-/

namespace EasyFig

/-- A Python value, as far as `easyFig.py` inspects values: numbers,
strings, lists, tuples and string-keyed dicts (a dict is a list of
key/value pairs in insertion order). -/
inductive PyVal where
  | num (q : ℚ)
  | str (s : String)
  | pylist (items : List PyVal)
  | pytuple (items : List PyVal)
  | pydict (entries : List (String × PyVal))

/-- The keyword-argument bag `**kwargs`. -/
abbrev KwArgs := List (String × PyVal)

/-- Python `isinstance(v, dict)`. -/
def isDict : PyVal → Bool
  | .pydict _ => true
  | _ => false

/-- Python `isinstance(v, (list, tuple))`. -/
def isSeq : PyVal → Bool
  | .pylist _ => true
  | .pytuple _ => true
  | _ => false

/-- The elements of a list or tuple (`[]` for every other value). -/
def seqItems : PyVal → List PyVal
  | .pylist xs => xs
  | .pytuple xs => xs
  | _ => []

/-- The entries of a dict (`[]` for every other value). -/
def dictEntries : PyVal → List (String × PyVal)
  | .pydict es => es
  | _ => []

/-- Python `v[i]` on a list or tuple whose length exceeds `i`
(only used under that guard). -/
def seqItem (d : PyVal) (i : Nat) : PyVal := (seqItems d).getD i (.num 0)

/-- Python `len(v)`: defined for lists, tuples, dicts and strings,
a `TypeError` otherwise. -/
def pyLen : PyVal → Except String Nat
  | .pylist xs => .ok xs.length
  | .pytuple xs => .ok xs.length
  | .pydict es => .ok es.length
  | .str s => .ok s.length
  | .num _ => .error "TypeError: object of type number has no len()"

/-- Python `list(range(n))`, also the x-vector `np.arange(n)` viewed as data. -/
def indexRange (n : Nat) : PyVal := .pylist ((List.range n).map (fun i => PyVal.num (Nat.cast i)))

/-- `np.arange(n)` as a vector of rationals. -/
def arange (n : Nat) : List ℚ := (List.range n).map Nat.cast

/-- The five input shapes of the classification chain shared by
`plot_line` (lines 70-110) and `plot_bar` (lines 217-309). -/
inductive Shape where
  | dictShape (entries : List (String × PyVal))
  | pairMapping (x : PyVal) (entries : List (String × PyVal))
  | pairXY (x y : PyVal)
  | seqOfSeq (items : List PyVal)
  | single

/-- The ordered `isinstance` chain both renderers run on `data`:
dict, then 2-element pair with a dict second, then 2-element pair with a
non-dict second, then "all elements are lists/tuples", then the fallback
single-series case.  Mirrors the `if/elif` chain of easyFig.py. -/
def classify (data : PyVal) : Shape :=
  if isDict data then
    .dictShape (dictEntries data)
  else if isSeq data && (seqItems data).length == 2 && isDict (seqItem data 1) then
    .pairMapping (seqItem data 0) (dictEntries (seqItem data 1))
  else if isSeq data && (seqItems data).length == 2 && !(isDict (seqItem data 1)) then
    .pairXY (seqItem data 0) (seqItem data 1)
  else if isSeq data && (seqItems data).all isSeq then
    .seqOfSeq (seqItems data)
  else
    .single

/-- One `ax.plot(...)` call: its positional arguments, its `label=`
keyword if any, and the forwarded `**kwargs`. -/
structure LineCall where
  args : List PyVal
  label : Option String
  kwargs : KwArgs

/-- What `plot_line` has done by the end of its data-dispatch block:
the issued `ax.plot` calls, the final value of the `series_names`
variable, and whether the branch itself already called `plt.legend()`
(only the sequence-of-sequences branch does, line 101). -/
structure LineResult where
  calls : List LineCall
  series_names : Option (List String)
  forcedLegend : Bool

/-- The `ax.plot` calls of the sequence-of-sequences branch of `plot_line`
(lines 98-99): `plt.plot(x_data, y_values, label=f'Series {i+1}')` —
note that `**kwargs` is not forwarded there. -/
def seqSeriesCalls (xr : PyVal) : Nat → List PyVal → List LineCall
  | _, [] => []
  | i, ys :: rest =>
      { args := [xr, ys], label := some ("Series " ++ toString (i + 1)), kwargs := [] }
        :: seqSeriesCalls xr (i + 1) rest

/-- The body of `plot_line`'s data dispatch, one arm per `classify` shape. -/
def lineRender : Shape → PyVal → Option PyVal → KwArgs → Except String LineResult
  | .dictShape entries, _, x_data, kwargs =>
      .ok { calls := entries.map (fun p =>
              match x_data with
              | some xd => { args := [xd, p.2], label := some p.1, kwargs := kwargs }
              | none => { args := [p.2], label := some p.1, kwargs := kwargs }),
            series_names := some (entries.map Prod.fst),
            forcedLegend := false }
  | .pairMapping x entries, _, _, kwargs =>
      .ok { calls := entries.map (fun p => { args := [x, p.2], label := some p.1, kwargs := kwargs }),
            series_names := some (entries.map Prod.fst),
            forcedLegend := false }
  | .pairXY x y, _, _, kwargs =>
      .ok { calls := [{ args := [x, y], label := none, kwargs := kwargs }],
            series_names := none,
            forcedLegend := false }
  | .seqOfSeq items, _, x_data, _ =>
      match x_data with
      | some xd =>
          .ok { calls := seqSeriesCalls xd 0 items, series_names := none, forcedLegend := true }
      | none =>
          match items.head? with
          | none => .error "IndexError: list index out of range"
          | some first =>
              .ok { calls := seqSeriesCalls (indexRange (seqItems first).length) 0 items,
                    series_names := none, forcedLegend := true }
  | .single, data, x_data, kwargs =>
      .ok { calls := [ match x_data with
              | some xd => { args := [xd, data], label := none, kwargs := kwargs }
              | none => { args := [data], label := none, kwargs := kwargs } ],
            series_names := none,
            forcedLegend := false }

/-- The data-normalization and drawing stage of `plot_line`
(easyFig.py lines 70-110). -/
def plot_line (data : PyVal) (x_data : Option PyVal) (kwargs : KwArgs) :
    Except String LineResult :=
  lineRender (classify data) data x_data kwargs

/-- The x/y data a single `ax.plot(...)` call draws: with two positional
arguments they are taken verbatim; with one, matplotlib pairs the data
with the index range `0..len-1` (a scalar counts as one point). -/
def plotXY (c : LineCall) : PyVal × PyVal :=
  match c.args with
  | [x, y] => (x, y)
  | [y] =>
      match y with
      | .pylist ys => (indexRange ys.length, y)
      | .pytuple ys => (indexRange ys.length, y)
      | .num q => (indexRange 1, .num q)
      | .str s => (indexRange s.length, .str s)
      | .pydict es => (indexRange es.length, .pydict es)
  | _ => (.num 0, .num 0)

/-- One `ax.bar(...)` call: the bar positions (`x_pos` possibly shifted by a
group offset), the height data, the bar width, the `label=` and `bottom=`
keywords if given, and the forwarded `**kwargs`. -/
structure BarCall where
  xpos : List ℚ
  ys : PyVal
  width : ℚ
  label : Option String
  bottom : Option (List ℚ)
  kwargs : KwArgs

/-- What `plot_bar` has done by the end of its data-dispatch block: the
issued `ax.bar` calls, the final `series_names` variable, and the
`set_xticks` / `set_xticklabels` arguments. -/
structure BarResult where
  calls : List BarCall
  series_names : Option (List String)
  xticks : List ℚ
  xticklabels : PyVal

/-- A list or tuple of numbers as a vector of rationals (`np.array(y_values)`
on numeric input); an error on anything numpy cannot add to a float array. -/
def numList : List PyVal → Except String (List ℚ)
  | [] => .ok []
  | .num q :: rest =>
      match numList rest with
      | .ok qs => .ok (q :: qs)
      | .error e => .error e
  | _ :: _ => .error "numpy: unsupported operand type for add"

/-- See `numList`. -/
def toNums : PyVal → Except String (List ℚ)
  | .pylist xs => numList xs
  | .pytuple xs => numList xs
  | _ => .error "numpy: unsupported operand type for add"

/-- Elementwise sum of two equal-length vectors. -/
def vecAdd (a b : List ℚ) : List ℚ := List.zipWith (fun x y => x + y) a b

/-- numpy `+` on two 1-D arrays: elementwise when the lengths agree
(the broadcasting of scalars is never reached by this code's callers
with the inputs considered here, so only the equal-length case is given). -/
def npAdd (a b : List ℚ) : Except String (List ℚ) :=
  if a.length = b.length then .ok (vecAdd a b)
  else .error "ValueError: operands could not be broadcast together"

/-- `bar_width = width / len(series_names)` of the grouped branches
(easyFig.py lines 235, 258, 292). -/
def groupedBarWidth (S : Nat) (w : ℚ) : ℚ := w / (S : ℚ)

/-- `offset = (i - len(series_names)/2 + 0.5) * bar_width` of the grouped
branches (easyFig.py lines 237, 260, 294). -/
def groupedOffset (S : Nat) (w : ℚ) (i : Nat) : ℚ :=
  ((i : ℚ) - (S : ℚ) / 2 + 1 / 2) * groupedBarWidth S w

/-- The grouped-mode loop: for the `i`-th series an
`ax.bar(x_pos + offset, y_values, bar_width, label=name, **kwargs)` call. -/
def groupedCalls (xpos : List ℚ) (w : ℚ) (kw : KwArgs) (S : Nat) :
    Nat → List (String × PyVal) → List BarCall
  | _, [] => []
  | i, e :: rest =>
      { xpos := xpos.map (fun t => t + groupedOffset S w i), ys := e.2,
        width := groupedBarWidth S w, label := some e.1, bottom := none, kwargs := kw }
        :: groupedCalls xpos w kw S (i + 1) rest

/-- The stacked-mode loop: each series issues
`ax.bar(x_pos, y_values, width, label=name, bottom=bottom, **kwargs)` and then
runs `bottom += np.array(y_values)`.  Returns the calls and the final
`bottom` vector. -/
def stackedCalls (xpos : List ℚ) (w : ℚ) (kw : KwArgs) :
    List ℚ → List (String × PyVal) → Except String (List BarCall × List ℚ)
  | bottom, [] => .ok ([], bottom)
  | bottom, e :: rest =>
      match toNums e.2 with
      | .error er => .error er
      | .ok ys =>
        match npAdd bottom ys with
        | .error er => .error er
        | .ok b' =>
          match stackedCalls xpos w kw b' rest with
          | .error er => .error er
          | .ok p =>
              .ok ({ xpos := xpos, ys := e.2, width := w, label := some e.1,
                     bottom := some bottom, kwargs := kw } :: p.1, p.2)

/-- The stacked/grouped dispatch shared (textually repeated) by the three
multi-series branches of `plot_bar` (lines 227-238, 250-261, 284-295):
stacked mode starts from `bottom = np.zeros(len(x_data))`; grouped mode
divides `width` by the number of series (a `ZeroDivisionError` when there
are none). -/
def barSeries (x_pos : List ℚ) (bar_type : String) (w : ℚ) (kw : KwArgs)
    (entries : List (String × PyVal)) : Except String (List BarCall) :=
  if bar_type = "stacked" then
    match stackedCalls x_pos w kw (List.replicate x_pos.length 0) entries with
    | .error e => .error e
    | .ok p => .ok p.1
  else if entries.length = 0 then
    .error "ZeroDivisionError: float division by zero"
  else
    .ok (groupedCalls x_pos w kw entries.length 0 entries)

/-- `if x_data is None: x_data = list(range(len(vals[0])))` — the x-axis
resolution of the dict branch (line 222-223, `vals` being the dict values)
and of the sequence-of-sequences branch (lines 279-280, `vals` being the
rows); indexing `vals[0]` on an empty list raises. -/
def resolveXFromFirst (x_data : Option PyVal) (vals : List PyVal) : Except String PyVal :=
  match x_data with
  | some xd => .ok xd
  | none =>
      match vals.head? with
      | none => .error "IndexError: list index out of range"
      | some v =>
          match pyLen v with
          | .error e => .error e
          | .ok m => .ok (indexRange m)

/-- `if x_data is None: x_data = list(range(len(data)))` — the x-axis
resolution of the fallback single-series branch (lines 302-303). -/
def resolveXSelf (x_data : Option PyVal) (data : PyVal) : Except String PyVal :=
  match x_data with
  | some xd => .ok xd
  | none =>
      match pyLen data with
      | .error e => .error e
      | .ok m => .ok (indexRange m)

/-- The common tail of the three multi-series branches of `plot_bar`:
resolve the x-axis, set `x_pos = np.arange(len(x))`, draw the series with
`barSeries`, and record `set_xticks(x_pos)` / `set_xticklabels(x)`. -/
def barMulti (xd : Except String PyVal) (bar_type : String) (w : ℚ) (kw : KwArgs)
    (names : List String) (entries : List (String × PyVal)) : Except String BarResult :=
  match xd with
  | .error e => .error e
  | .ok x =>
    match pyLen x with
    | .error e => .error e
    | .ok n =>
      match barSeries (arange n) bar_type w kw entries with
      | .error e => .error e
      | .ok calls =>
          .ok { calls := calls, series_names := some names,
                xticks := arange n, xticklabels := x }

/-- `series_names = [f'Series {i+1}' for i in range(len(data))]` paired with
the rows (line 277). -/
def seqNames : Nat → List PyVal → List (String × PyVal)
  | _, [] => []
  | i, ys :: rest => ("Series " ++ toString (i + 1), ys) :: seqNames (i + 1) rest

/-- The body of `plot_bar`'s data dispatch, one arm per `classify` shape
(easyFig.py lines 217-309). -/
def barRender : Shape → PyVal → Option PyVal → String → ℚ → KwArgs → Except String BarResult
  | .dictShape entries, _, x_data, bar_type, w, kw =>
      barMulti (resolveXFromFirst x_data (entries.map Prod.snd)) bar_type w kw
        (entries.map Prod.fst) entries
  | .pairMapping x entries, _, _, bar_type, w, kw =>
      barMulti (.ok x) bar_type w kw (entries.map Prod.fst) entries
  | .pairXY x y, _, _, _, w, kw =>
      match pyLen x with
      | .error e => .error e
      | .ok n =>
          .ok { calls := [{ xpos := arange n, ys := y, width := w, label := none,
                            bottom := none, kwargs := kw }],
                series_names := none, xticks := arange n, xticklabels := x }
  | .seqOfSeq items, _, x_data, bar_type, w, kw =>
      barMulti (resolveXFromFirst x_data items) bar_type w kw
        ((seqNames 0 items).map Prod.fst) (seqNames 0 items)
  | .single, data, x_data, _, w, kw =>
      match resolveXSelf x_data data with
      | .error e => .error e
      | .ok xd =>
        match pyLen xd with
        | .error e => .error e
        | .ok n =>
            .ok { calls := [{ xpos := arange n, ys := data, width := w, label := none,
                              bottom := none, kwargs := kw }],
                  series_names := none, xticks := arange n, xticklabels := xd }

/-- The data-normalization and drawing stage of `plot_bar`
(easyFig.py lines 217-309). -/
def plot_bar (data : PyVal) (x_data : Option PyVal) (bar_type : String) (width : ℚ)
    (kwargs : KwArgs) : Except String BarResult :=
  barRender (classify data) data x_data bar_type width kwargs

/-- The legend argument: unset (`None`), an explicit boolean, or a list of
label strings. -/
inductive LegendArg where
  | unset
  | flag (b : Bool)
  | labels (ls : List String)

/-- `legend is True`. -/
def legendIsTrue : LegendArg → Bool
  | .flag true => true
  | _ => false

/-- `legend is None`. -/
def legendIsUnset : LegendArg → Bool
  | .unset => true
  | _ => false

/-- The legend block shared verbatim by both renderers (easyFig.py lines
117-124 and 316-323).  Each element of the returned list is one
`ax.legend(...)` call, `some ls` when explicit labels are passed. -/
def legendEffects (legend : LegendArg) (series_names : Option (List String)) :
    List (Option (List String)) :=
  if legendIsTrue legend || (legendIsUnset legend && series_names.isSome) then
    match legend with
    | .labels ls => [some ls]
    | _ => [none]
  else
    match legend with
    | .labels ls => [some ls]
    | _ => []

/-- Whether the shared legend block displays a legend. -/
def legendShown (legend : LegendArg) (series_names : Option (List String)) : Bool :=
  !(legendEffects legend series_names).isEmpty

/-- `os.path.dirname` on POSIX paths: everything before the last `/`,
with trailing slashes stripped unless the result is all slashes. -/
def dirname (p : String) : String :=
  let cs := p.data
  let head := (cs.reverse.dropWhile (fun c => c ≠ '/')).reverse
  if head ≠ [] ∧ ¬ head.all (fun c => c = '/') then
    String.mk ((head.reverse.dropWhile (fun c => c = '/')).reverse)
  else
    String.mk head

/-- The filesystem / output side effects of the save block. -/
inductive SaveEffect where
  | makedirs (dir : String)
  | savefig (path : String) (dpi : Nat) (bboxTight : Bool)
  | printMsg (msg : String)

/-- The save block shared verbatim by both renderers (easyFig.py lines
133-141 and 332-340): under `if save_path:` (falsy `None` and `""` do
nothing), create the parent directory when it is nonempty and missing, then
`plt.savefig(save_path, dpi=300, bbox_inches='tight')` and print a
confirmation.  `ex` is the `os.path.exists` view of the filesystem. -/
def saveEffects (save_path : Option String) (ex : String → Bool) : List SaveEffect :=
  match save_path with
  | none => []
  | some p =>
    if p = "" then []
    else
      (if dirname p ≠ "" ∧ ex (dirname p) = false then [SaveEffect.makedirs (dirname p)] else [])
        ++ [SaveEffect.savefig p 300 true,
            SaveEffect.printMsg ("Image saved to: " ++ p)]

/-- A vector of rationals as the Python list matplotlib receives. -/
def pyOfNums (ys : List ℚ) : PyVal := .pylist (ys.map PyVal.num)

/-- A dict of named numeric series, in insertion order. -/
def mkEntries (names : List String) (yss : List (List ℚ)) : List (String × PyVal) :=
  List.zipWith (fun nm ys => (nm, pyOfNums ys)) names yss

/-- Elementwise sum of the first `k` series (each of length `n`). -/
def cumSum (n : Nat) (yss : List (List ℚ)) (k : Nat) : List ℚ :=
  (yss.take k).foldl vecAdd (List.replicate n 0)

/-- The successive values taken by the `bottom` variable of the stacked
loop, one per drawn series. -/
def runningBottoms : List ℚ → List (List ℚ) → List (Option (List ℚ))
  | _, [] => []
  | b, ys :: rest => some b :: runningBottoms (vecAdd b ys) rest

lemma length_arange (n : Nat) : (arange n).length = n := by
  rw [arange, List.length_map, List.length_range]

lemma pyLen_indexRange (n : Nat) : pyLen (indexRange n) = .ok n := by
  rw [indexRange, pyLen, List.length_map, List.length_range]

lemma length_vecAdd (a b : List ℚ) (h : a.length = b.length) :
    (vecAdd a b).length = a.length := by
  simp [vecAdd, h]

lemma npAdd_of_length_eq (a b : List ℚ) (h : a.length = b.length) :
    npAdd a b = .ok (vecAdd a b) := by
  simp [npAdd, h]

lemma numList_map_num (ys : List ℚ) : numList (ys.map PyVal.num) = .ok ys := by
  induction ys with
  | nil => rfl
  | cons y ys ih => simp [numList, ih]

lemma toNums_pyOfNums (ys : List ℚ) : toNums (pyOfNums ys) = .ok ys := by
  simp [toNums, pyOfNums, numList_map_num]

lemma mkEntries_map_snd (names : List String) (yss : List (List ℚ))
    (h : names.length = yss.length) :
    (mkEntries names yss).map Prod.snd = yss.map pyOfNums := by
  induction yss generalizing names with
  | nil => cases names <;> simp_all [mkEntries]
  | cons ys yss ih =>
      cases names with
      | nil => simp at h
      | cons nm names =>
          have h' : names.length = yss.length := by simpa using h
          simpa [mkEntries, List.zipWith_cons_cons] using ih names h'

lemma mkEntries_map_fst (names : List String) (yss : List (List ℚ))
    (h : names.length = yss.length) :
    (mkEntries names yss).map Prod.fst = names := by
  induction yss generalizing names with
  | nil => cases names <;> simp_all [mkEntries]
  | cons ys yss ih =>
      cases names with
      | nil => simp at h
      | cons nm names =>
          have h' : names.length = yss.length := by simpa using h
          simpa [mkEntries, List.zipWith_cons_cons] using ih names h'

lemma stackedCalls_width (entries : List (String × PyVal)) :
    ∀ (xpos : List ℚ) (w : ℚ) (kw : KwArgs) (b : List ℚ) (calls : List BarCall) (bf : List ℚ),
      stackedCalls xpos w kw b entries = .ok (calls, bf) → ∀ c ∈ calls, c.width = w := by
  induction entries with
  | nil =>
      intro xpos w kw b calls bf h c hc
      simp only [stackedCalls, Except.ok.injEq, Prod.mk.injEq] at h
      rw [← h.1] at hc
      simp at hc
  | cons e rest ih =>
      intro xpos w kw b calls bf h c hc
      rw [stackedCalls] at h
      cases hty : toNums e.2 with
      | error er => exact Except.noConfusion (by simpa only [hty] using h)
      | ok ys =>
          simp only [hty] at h
          cases hadd : npAdd b ys with
          | error er => exact Except.noConfusion (by simpa only [hadd] using h)
          | ok b' =>
              simp only [hadd] at h
              cases hrec : stackedCalls xpos w kw b' rest with
              | error er => exact Except.noConfusion (by simpa only [hrec] using h)
              | ok p =>
                  simp only [hrec, Except.ok.injEq, Prod.mk.injEq] at h
                  rw [← h.1] at hc
                  rcases List.mem_cons.mp hc with rfl | hmem
                  · rfl
                  · exact ih xpos w kw b' p.1 p.2 (by rw [hrec]) c hmem

lemma barSeries_stacked_width (x_pos : List ℚ) (w : ℚ) (kw : KwArgs)
    (entries : List (String × PyVal)) (calls : List BarCall)
    (h : barSeries x_pos "stacked" w kw entries = .ok calls) :
    ∀ c ∈ calls, c.width = w := by
  unfold barSeries at h
  rw [if_pos rfl] at h
  split at h
  · exact absurd h (by simp)
  · rename_i p hp
    simp only [Except.ok.injEq] at h
    rw [← h]
    exact fun c hc => stackedCalls_width entries x_pos w kw _ p.1 p.2 (by rw [hp]) c hc

lemma barMulti_stacked_width (xd : Except String PyVal) (w : ℚ) (kw : KwArgs)
    (names : List String) (entries : List (String × PyVal)) (r : BarResult)
    (h : barMulti xd "stacked" w kw names entries = .ok r) :
    ∀ c ∈ r.calls, c.width = w := by
  unfold barMulti at h
  split at h
  · exact absurd h (by simp)
  · split at h
    · exact absurd h (by simp)
    · split at h
      · exact absurd h (by simp)
      · rename_i calls hcalls
        simp only [Except.ok.injEq] at h
        rw [← h]
        exact barSeries_stacked_width _ w kw entries calls hcalls

lemma stackedCalls_mkEntries (xpos : List ℚ) (w : ℚ) (kw : KwArgs) :
    ∀ (yss : List (List ℚ)) (names : List String) (b : List ℚ),
      names.length = yss.length → (∀ ys ∈ yss, ys.length = b.length) →
      ∃ calls, stackedCalls xpos w kw b (mkEntries names yss) = .ok (calls, yss.foldl vecAdd b)
        ∧ calls.map (fun c => c.bottom) = runningBottoms b yss := by
  intro yss
  induction yss with
  | nil =>
      intro names b hn _
      cases names with
      | nil => exact ⟨[], rfl, rfl⟩
      | cons nm names => simp at hn
  | cons ys yss ih =>
      intro names b hn hlen
      cases names with
      | nil => simp at hn
      | cons nm names =>
          have hn' : names.length = yss.length := by simpa using hn
          have hhead : ys.length = b.length := hlen ys (by simp)
          have hrest : ∀ ys' ∈ yss, ys'.length = (vecAdd b ys).length := by
            intro ys' hm
            rw [length_vecAdd b ys hhead.symm]
            exact hlen ys' (by simp [hm])
          obtain ⟨calls, hcalls, hbot⟩ := ih names (vecAdd b ys) hn' hrest
          refine ⟨{ xpos := xpos, ys := pyOfNums ys, width := w, label := some nm,
                    bottom := some b, kwargs := kw } :: calls, ?_, ?_⟩
          · have hunfold : mkEntries (nm :: names) (ys :: yss)
                = (nm, pyOfNums ys) :: mkEntries names yss := rfl
            have hcalls2 : stackedCalls xpos w kw (vecAdd b ys)
                  (List.zipWith (fun nm ys => (nm, pyOfNums ys)) names yss)
                = Except.ok (calls, List.foldl vecAdd (vecAdd b ys) yss) := hcalls
            simp only [hunfold, stackedCalls, toNums_pyOfNums,
              npAdd_of_length_eq b ys hhead.symm, hcalls, hcalls2, List.foldl_cons]
          · simp [runningBottoms, hbot]

lemma runningBottoms_eq (yss : List (List ℚ)) :
    ∀ b : List ℚ, runningBottoms b yss
      = (List.range yss.length).map (fun k => some ((yss.take k).foldl vecAdd b)) := by
  induction yss with
  | nil => intro b; rfl
  | cons ys yss ih =>
      intro b
      rw [runningBottoms, List.length_cons, List.range_succ_eq_map, List.map_cons, ih (vecAdd b ys)]
      simp [List.map_map, Function.comp]

lemma groupedCalls_mem_width (xpos : List ℚ) (w : ℚ) (kw : KwArgs) (S : Nat) :
    ∀ (entries : List (String × PyVal)) (i : Nat),
      ∀ c ∈ groupedCalls xpos w kw S i entries, c.width = groupedBarWidth S w := by
  intro entries
  induction entries with
  | nil => intro i c hc; simp [groupedCalls] at hc
  | cons e rest ih =>
      intro i c hc
      rw [groupedCalls] at hc
      rcases List.mem_cons.mp hc with rfl | hmem
      · rfl
      · exact ih (i + 1) c hmem

lemma groupedCalls_map_xpos (xpos : List ℚ) (w : ℚ) (kw : KwArgs) (S : Nat) :
    ∀ (entries : List (String × PyVal)) (i : Nat),
      (groupedCalls xpos w kw S i entries).map (fun c => c.xpos)
        = (List.range' i entries.length).map
            (fun j => xpos.map (fun t => t + groupedOffset S w j)) := by
  intro entries
  induction entries with
  | nil => intro i; rfl
  | cons e rest ih =>
      intro i
      rw [groupedCalls, List.map_cons, List.length_cons, List.range'_succ, List.map_cons,
        ih (i + 1)]

lemma cast_sum_range (S : Nat) (hS : 0 < S) :
    (∑ i in Finset.range S, (i : ℚ)) * 2 = (S : ℚ) * ((S : ℚ) - 1) := by
  have h := Finset.sum_range_id_mul_two S
  have hc := congrArg (fun m : ℕ => (m : ℚ)) h
  push_cast at hc
  rw [Nat.cast_sub (by omega : 1 ≤ S)] at hc
  push_cast at hc
  exact hc

/-- C1: the claim says every flat numeric sequence `ys` makes `plot_line(ys)`
(with `x_data` unset) draw exactly one series with y-values `ys` and x-values
`0..len(ys)-1`.  The code breaks this for `ys = [1, 2]`: a flat list of
length 2 falls into the `(x_data, y_data)` pair branch (line 88), so the one
`ax.plot` call receives the two scalars `1` and `2` as positional arguments
and draws the single point `(1, 2)` — its drawn y-data is the scalar `2`,
not the list `[1, 2]`, and its x-data is `1`, not `[0, 1]`.  A length-3 flat
list behaves as the claim says. -/
theorem plot_line_flat_two_element_list_misread :
    plot_line (.pylist [.num 1, .num 2]) none []
      = .ok { calls := [{ args := [.num 1, .num 2], label := none, kwargs := [] }],
              series_names := none, forcedLegend := false }
    ∧ (plot_line (.pylist [.num 1, .num 2]) none []).map (fun r => r.calls.map plotXY)
      = .ok [(.num 1, .num 2)]
    ∧ (PyVal.num 1, PyVal.num 2) ≠ (indexRange 2, PyVal.pylist [.num 1, .num 2])
    ∧ (plot_line (.pylist [.num 1, .num 2, .num 3]) none []).map (fun r => r.calls.map plotXY)
      = .ok [(indexRange 3, .pylist [.num 1, .num 2, .num 3])] :=
  ⟨rfl, rfl, by simp [indexRange, List.range], rfl⟩

/-- C2: a 2-element pair of two plain (non-mapping) sequences is classified
by both renderers as the "(x, y) pair" shape — one unnamed series whose
x-axis is the pair's first element — and never as "sequence of sequences",
because the pair checks precede the all-elements-are-sequences check. -/
theorem pair_of_plain_sequences_is_xy (a b : PyVal) (ha : isSeq a = true)
    (hb : isSeq b = true) (d : PyVal) (hd : d = .pylist [a, b] ∨ d = .pytuple [a, b]) :
    classify d = .pairXY a b
    ∧ (∀ x kw, plot_line d x kw
        = .ok { calls := [{ args := [a, b], label := none, kwargs := kw }],
                series_names := none, forcedLegend := false })
    ∧ (∀ x bt w kw, plot_bar d x bt w kw
        = .ok { calls := [{ xpos := arange (seqItems a).length, ys := b, width := w,
                            label := none, bottom := none, kwargs := kw }],
                series_names := none, xticks := arange (seqItems a).length,
                xticklabels := a }) := by
  have hbd : isDict b = false := by cases b <;> simp_all [isSeq, isDict]
  have hc : classify d = .pairXY a b := by
    rcases hd with rfl | rfl <;>
      simp [classify, seqItems, seqItem, List.getD, hbd,
        show isDict (PyVal.pylist [a, b]) = false from rfl,
        show isDict (PyVal.pytuple [a, b]) = false from rfl,
        show isSeq (PyVal.pylist [a, b]) = true from rfl,
        show isSeq (PyVal.pytuple [a, b]) = true from rfl]
  refine ⟨hc, ?_, ?_⟩
  · intro x kw
    simp [plot_line, hc, lineRender]
  · intro x bt w kw
    have hla : pyLen a = .ok (seqItems a).length := by
      cases a <;> simp_all [isSeq, pyLen, seqItems]
    simp [plot_bar, hc, barRender, hla]

/-- C2 witness: the spec's own example `([1,2,3], [4,5,6])`. -/
theorem pair_of_plain_sequences_is_xy_witness :
    classify (.pytuple [.pylist [.num 1, .num 2, .num 3], .pylist [.num 4, .num 5, .num 6]])
      = .pairXY (.pylist [.num 1, .num 2, .num 3]) (.pylist [.num 4, .num 5, .num 6]) :=
  (pair_of_plain_sequences_is_xy (.pylist [.num 1, .num 2, .num 3])
    (.pylist [.num 4, .num 5, .num 6]) rfl rfl _ (Or.inr rfl)).1

/-- C5 counterexample: with `legend` unset and the single-key mapping
`{"a": [1,2,3]}`, `plot_line` ends with `series_names = ["a"]` — one named
series, not more than one — yet the shared legend block does display a
legend, because it only tests `series_names is not None`.  This refutes
"a legend is displayed iff more than one named series exists". -/
theorem legend_shown_for_single_named_series :
    (plot_line (.pydict [("a", .pylist [.num 1, .num 2, .num 3])]) none []).map
        (fun r => (r.series_names.map List.length, legendShown .unset r.series_names))
      = .ok (some 1, true)
    ∧ ¬ (1 > 1) := ⟨rfl, by decide⟩

/-- C5 (amended): when `legend` is unset a legend is displayed iff
`series_names` is set (the input was classified as a mapping shape), even
when it holds one or zero names; `legend = True` always displays one;
`legend = False` never does; and a list value is forwarded to `ax.legend`
as positional replacement labels in every case. -/
theorem legend_policy (names : Option (List String)) (ls : List String)
    (es : List (String × PyVal)) (x : Option PyVal) (kw : KwArgs) :
    legendShown .unset names = names.isSome
    ∧ legendShown (.flag true) names = true
    ∧ legendShown (.flag false) names = false
    ∧ legendEffects (.labels ls) names = [some ls]
    ∧ (plot_line (.pydict es) x kw).map (fun r => legendShown .unset r.series_names)
      = .ok true := by
  refine ⟨?_, rfl, rfl, ?_, ?_⟩
  · cases names <;> rfl
  · cases names <;> rfl
  · simp [plot_line, classify, isDict, dictEntries, lineRender, legendShown, legendEffects,
      legendIsTrue, legendIsUnset, Except.map]

/-- C5 witness: the legend policy at a concrete single-name value. -/
theorem legend_policy_witness :
    legendShown .unset (some ["a"]) = (some ["a"]).isSome :=
  (legend_policy (some ["a"]) [] [] none []).1

/-- C6: the claim says both renderers forward the keyword-option bag to the
draw primitive for every input shape.  `plot_bar` does, but `plot_line`'s
sequence-of-sequences branch (line 99) calls `plt.plot(x_data, y_values,
label=...)` without `**kwargs`: for the 3-row input below with
`color="red"`, every `ax.plot` call carries an empty option bag, while the
same input through `plot_bar` keeps the bag on every call. -/
theorem plot_line_seq_of_seq_drops_kwargs :
    (plot_line (.pylist [.pylist [.num 1, .num 2], .pylist [.num 3, .num 4],
          .pylist [.num 5, .num 6]]) none [("color", .str "red")]).map
        (fun r => r.calls.map (fun c => c.kwargs))
      = .ok [[], [], []]
    ∧ ([] : KwArgs) ≠ [("color", PyVal.str "red")]
    ∧ (plot_bar (.pylist [.pylist [.num 1, .num 2], .pylist [.num 3, .num 4],
          .pylist [.num 5, .num 6]]) none "grouped" (4/5) [("color", .str "red")]).map
        (fun r => r.calls.map (fun c => c.kwargs))
      = .ok [[("color", .str "red")], [("color", .str "red")], [("color", .str "red")]] :=
  ⟨rfl, by simp, rfl⟩

/-- C7 counterexample: `plot_bar({})` with `x_data` unset does not reach any
draw or legend call: the normalization itself raises `IndexError` at
`series_data[0]` (line 223), an error of the dispatch logic rather than of
the underlying plot primitive. -/
theorem plot_bar_empty_dict_raises_in_normalization :
    plot_bar (.pydict []) none "grouped" (4/5) []
      = .error "IndexError: list index out of range" := rfl

/-- C7 (amended): an empty mapping passed to `plot_line` does yield zero
series and reaches the legend stage without a normalization error; but an
empty sequence passed to either renderer, and an empty mapping passed to
`plot_bar`, raise the normalizer's own `IndexError` (with `x_data` unset)
before any draw call — the all-elements-are-sequences check is vacuously
true on an empty sequence and `data[0]` / `series_data[0]` is then
indexed. -/
theorem empty_inputs_normalization :
    plot_line (.pydict []) none []
      = .ok { calls := [], series_names := some [], forcedLegend := false }
    ∧ plot_line (.pylist []) none [] = .error "IndexError: list index out of range"
    ∧ plot_bar (.pydict []) none "grouped" (4/5) []
      = .error "IndexError: list index out of range"
    ∧ plot_bar (.pylist []) none "grouped" (4/5) []
      = .error "IndexError: list index out of range" :=
  ⟨rfl, rfl, rfl, rfl⟩

/-- C8: with a non-`None` save path whose parent directory does not exist,
the shared save block first creates the missing directory, then writes the
figure at 300 DPI with a tight bounding box, then prints a confirmation
naming the path; with `save_path = None` nothing is written or printed. -/
theorem save_path_effects (p : String) (ex : String → Bool)
    (hd : dirname p ≠ "") (hne : ex (dirname p) = false) :
    saveEffects (some p) ex
      = [.makedirs (dirname p), .savefig p 300 true,
         .printMsg ("Image saved to: " ++ p)]
    ∧ saveEffects none ex = [] := by
  constructor
  · have hp : p ≠ "" := by
      intro h
      exact hd (by rw [h]; rfl)
    simp only [saveEffects]
    rw [if_neg hp, if_pos ⟨hd, hne⟩]
    rfl
  · rfl

/-- C8 witness: saving to `out/sub/chart.png` on a filesystem where
`out/sub` does not exist. -/
theorem save_path_effects_witness :
    saveEffects (some "out/sub/chart.png") (fun _ => false)
      = [.makedirs "out/sub", .savefig "out/sub/chart.png" 300 true,
         .printMsg "Image saved to: out/sub/chart.png"] := by
  have h := save_path_effects "out/sub/chart.png" (fun _ => false) (by decide) rfl
  rw [h.1]
  rfl

/-- C9: whenever `data` is classified as one of the 2-element pair shapes
("(x, mapping)" or "(x, y)"), both renderers take the pair's first element
as the x-axis (it heads every `ax.plot` call's arguments, and it is the
`set_xticklabels` argument of `plot_bar`) and the separate `x_data`
parameter is ignored: the renderers' output is the same for every value of
`x_data`. -/
theorem pair_shapes_use_first_element_ignore_x_data (data a : PyVal)
    (h : (∃ es, classify data = .pairMapping a es) ∨ (∃ y, classify data = .pairXY a y)) :
    (∀ x₁ x₂ kw, plot_line data x₁ kw = plot_line data x₂ kw)
    ∧ (∀ x₁ x₂ bt w kw, plot_bar data x₁ bt w kw = plot_bar data x₂ bt w kw)
    ∧ (∀ x kw r, plot_line data x kw = .ok r → ∀ c ∈ r.calls, c.args.head? = some a)
    ∧ (∀ x bt w kw r, plot_bar data x bt w kw = .ok r → r.xticklabels = a) := by
  rcases h with ⟨es, hc⟩ | ⟨y, hc⟩
  · refine ⟨?_, ?_, ?_, ?_⟩
    · intro x₁ x₂ kw
      simp [plot_line, hc, lineRender]
    · intro x₁ x₂ bt w kw
      simp [plot_bar, hc, barRender]
    · intro x kw r hr c hcm
      simp only [plot_line, hc, lineRender, Except.ok.injEq] at hr
      rw [← hr] at hcm
      simp only [List.mem_map] at hcm
      obtain ⟨p, _, hpc⟩ := hcm
      rw [← hpc]
      rfl
    · intro x bt w kw r hr
      simp only [plot_bar, hc, barRender, barMulti] at hr
      cases hl : pyLen a with
      | error e => simp only [hl] at hr; exact Except.noConfusion hr
      | ok n =>
          simp only [hl] at hr
          cases hbs : barSeries (arange n) bt w kw es with
          | error e => simp only [hbs] at hr; exact Except.noConfusion hr
          | ok calls =>
              simp only [hbs, Except.ok.injEq] at hr
              rw [← hr]
  · refine ⟨?_, ?_, ?_, ?_⟩
    · intro x₁ x₂ kw
      simp [plot_line, hc, lineRender]
    · intro x₁ x₂ bt w kw
      simp [plot_bar, hc, barRender]
    · intro x kw r hr c hcm
      simp only [plot_line, hc, lineRender, Except.ok.injEq] at hr
      rw [← hr] at hcm
      simp only [List.mem_singleton] at hcm
      rw [hcm]
      rfl
    · intro x bt w kw r hr
      simp only [plot_bar, hc, barRender] at hr
      cases hl : pyLen a with
      | error e => simp only [hl] at hr; exact Except.noConfusion hr
      | ok n =>
          simp only [hl, Except.ok.injEq] at hr
          rw [← hr]

/-- C9 witness: an `(x, mapping)` pair, rendered with two different
`x_data` values. -/
theorem pair_shapes_ignore_x_data_witness :
    plot_line (.pytuple [.pylist [.num 1], .pydict [("s", .pylist [.num 2])]])
        (some (.pylist [.num 9])) []
      = plot_line (.pytuple [.pylist [.num 1], .pydict [("s", .pylist [.num 2])]]) none [] :=
  (pair_shapes_use_first_element_ignore_x_data
    (.pytuple [.pylist [.num 1], .pydict [("s", .pylist [.num 2])]])
    (.pylist [.num 1]) (Or.inl ⟨[("s", .pylist [.num 2])], rfl⟩)).1
    (some (.pylist [.num 9])) none []

/-- C10: in stacked mode every `ax.bar` call passes the full `width`
parameter as the bar width — it is never divided by the number of series,
unlike grouped mode. -/
theorem plot_bar_stacked_uses_full_width (data : PyVal) (x_data : Option PyVal) (w : ℚ)
    (kw : KwArgs) (r : BarResult) (h : plot_bar data x_data "stacked" w kw = .ok r) :
    ∀ c ∈ r.calls, c.width = w := by
  rw [plot_bar] at h
  cases hc : classify data with
  | dictShape entries =>
      rw [hc] at h
      simp only [barRender] at h
      exact barMulti_stacked_width _ w kw _ entries r h
  | pairMapping x entries =>
      rw [hc] at h
      simp only [barRender] at h
      exact barMulti_stacked_width _ w kw _ entries r h
  | pairXY x y =>
      rw [hc] at h
      simp only [barRender] at h
      cases hl : pyLen x with
      | error e => simp only [hl] at h; exact Except.noConfusion h
      | ok n =>
          simp only [hl, Except.ok.injEq] at h
          rw [← h]
          intro c hcm
          simp only [List.mem_singleton] at hcm
          rw [hcm]
  | seqOfSeq items =>
      rw [hc] at h
      simp only [barRender] at h
      exact barMulti_stacked_width _ w kw _ (seqNames 0 items) r h
  | single =>
      rw [hc] at h
      simp only [barRender] at h
      cases hx : resolveXSelf x_data data with
      | error e => simp only [hx] at h; exact Except.noConfusion h
      | ok xd =>
          simp only [hx] at h
          cases hl : pyLen xd with
          | error e => simp only [hl] at h; exact Except.noConfusion h
          | ok n =>
              simp only [hl, Except.ok.injEq] at h
              rw [← h]
              intro c hcm
              simp only [List.mem_singleton] at hcm
              rw [hcm]

/-- C10 witness: a stacked two-series dict, both bars drawn at the full
width `4/5`. -/
theorem plot_bar_stacked_uses_full_width_witness :
    (plot_bar (.pydict [("a", .pylist [.num 1]), ("b", .pylist [.num 2])]) none
        "stacked" (4/5) []).map (fun r => r.calls.map (fun c => c.width))
      = .ok [4/5, 4/5] := by
  have h : plot_bar (.pydict [("a", .pylist [.num 1]), ("b", .pylist [.num 2])]) none
        "stacked" (4/5) []
      = .ok { calls := [{ xpos := arange 1, ys := .pylist [.num 1], width := 4/5,
                          label := some "a", bottom := some (List.replicate 1 0), kwargs := [] },
                        { xpos := arange 1, ys := .pylist [.num 2], width := 4/5,
                          label := some "b",
                          bottom := some (vecAdd (List.replicate 1 0) [1]), kwargs := [] }],
              series_names := some ["a", "b"], xticks := arange 1,
              xticklabels := indexRange 1 } := rfl
  have hw := plot_bar_stacked_uses_full_width
    (.pydict [("a", .pylist [.num 1]), ("b", .pylist [.num 2])]) none (4/5) [] _ h
  rw [h]
  simp only [Except.map, List.map_cons, List.map_nil]

/-- C3: in grouped mode with `S` series and width parameter `W`, every bar
call uses the individual width `W/S`, those individual widths sum to `W`
over the `S` series, the offsets `(i - S/2 + 0.5) * (W/S)` sum to zero over
`i = 0..S-1`, and the `i`-th series' bar positions are the ticks shifted by
exactly that offset. -/
theorem grouped_bar_layout (S : Nat) (w : ℚ) (xpos : List ℚ) (kw : KwArgs)
    (entries : List (String × PyVal)) (hS : 0 < S) (hE : entries.length = S) :
    (∀ c ∈ groupedCalls xpos w kw S 0 entries, c.width = groupedBarWidth S w)
    ∧ (∑ _x in Finset.range S, groupedBarWidth S w) = w
    ∧ (∑ i in Finset.range S, groupedOffset S w i) = 0
    ∧ (groupedCalls xpos w kw S 0 entries).map (fun c => c.xpos)
      = (List.range S).map (fun i => xpos.map (fun t => t + groupedOffset S w i)) := by
  have hS0 : (S : ℚ) ≠ 0 := Nat.cast_ne_zero.mpr hS.ne'
  refine ⟨groupedCalls_mem_width xpos w kw S entries 0, ?_, ?_, ?_⟩
  · rw [Finset.sum_const, Finset.card_range, nsmul_eq_mul, groupedBarWidth]
    field_simp
  · have hsum : (∑ i in Finset.range S, ((i : ℚ) - (S : ℚ) / 2 + 1 / 2)) = 0 := by
      rw [Finset.sum_add_distrib, Finset.sum_sub_distrib, Finset.sum_const, Finset.sum_const,
        Finset.card_range, nsmul_eq_mul, nsmul_eq_mul]
      have hg := cast_sum_range S hS
      ring_nf at hg ⊢
      linarith
    calc (∑ i in Finset.range S, groupedOffset S w i)
        = (∑ i in Finset.range S, ((i : ℚ) - (S : ℚ) / 2 + 1 / 2)) * groupedBarWidth S w := by
          rw [Finset.sum_mul]
          rfl
      _ = 0 := by rw [hsum, zero_mul]
  · rw [groupedCalls_map_xpos xpos w kw S entries 0, hE, ← List.range_eq_range']

/-- C3 witness: four grouped series of total width `4/5`. -/
theorem grouped_bar_layout_witness :
    (∑ _x in Finset.range 4, groupedBarWidth 4 (4/5)) = 4/5
    ∧ (∑ i in Finset.range 4, groupedOffset 4 (4/5) i) = 0 :=
  ⟨(grouped_bar_layout 4 (4/5) [] [] (List.replicate 4 ("s", PyVal.num 0))
      (by decide) (by rfl)).2.1,
   (grouped_bar_layout 4 (4/5) [] [] (List.replicate 4 ("s", PyVal.num 0))
      (by decide) (by rfl)).2.2.1⟩

/-- C4: in stacked mode on a mapping of series (each a numeric list of the
common length `n`), the `bottom` passed to the `k`-th `ax.bar` call is the
elementwise sum of the y-values of series `0..k-1`, and the final
accumulated `bottom` is the elementwise sum of all series. -/
theorem plot_bar_stacked_bottom_accumulates (names : List String) (yss : List (List ℚ))
    (n : Nat) (w : ℚ) (kw : KwArgs)
    (h1 : ∀ ys ∈ yss, ys.length = n) (h2 : names.length = yss.length) (h3 : yss ≠ []) :
    (plot_bar (.pydict (mkEntries names yss)) none "stacked" w kw).map
        (fun r => r.calls.map (fun c => c.bottom))
      = .ok ((List.range yss.length).map (fun k => some (cumSum n yss k)))
    ∧ (stackedCalls (arange n) w kw (List.replicate n 0) (mkEntries names yss)).map Prod.snd
      = .ok (cumSum n yss yss.length) := by
  have hvals : (mkEntries names yss).map Prod.snd = yss.map pyOfNums :=
    mkEntries_map_snd _ _ h2
  have hx : resolveXFromFirst none ((mkEntries names yss).map Prod.snd)
      = .ok (indexRange n) := by
    rw [hvals]
    cases yss with
    | nil => exact absurd rfl h3
    | cons y₀ yrest =>
        have hy : y₀.length = n := h1 y₀ (by simp)
        simp [resolveXFromFirst, pyOfNums, pyLen, List.length_map, hy]
  have hlen' : ∀ ys ∈ yss, ys.length = (List.replicate n (0 : ℚ)).length := by
    intro ys hm
    rw [List.length_replicate]
    exact h1 ys hm
  obtain ⟨calls, hcalls, hbot⟩ :=
    stackedCalls_mkEntries (arange n) w kw yss names (List.replicate n 0) h2 hlen'
  have hbs : barSeries (arange n) "stacked" w kw (mkEntries names yss) = .ok calls := by
    rw [barSeries, if_pos rfl, length_arange]
    simp only [hcalls]
  constructor
  · have hcls : classify (.pydict (mkEntries names yss))
        = .dictShape (mkEntries names yss) := rfl
    rw [plot_bar, hcls]
    simp only [barRender, barMulti, hx, pyLen_indexRange, hbs, Except.map]
    rw [hbot, runningBottoms_eq]
    rfl
  · rw [hcalls]
    simp only [Except.map]
    rw [cumSum, List.take_length]

/-- C4 witness: two stacked series `[[1, 2], [3, 4]]` named `a`, `b`. -/
theorem plot_bar_stacked_bottom_accumulates_witness :
    (plot_bar (.pydict (mkEntries ["a", "b"] [[1, 2], [3, 4]])) none "stacked" (4/5) []).map
        (fun r => r.calls.map (fun c => c.bottom))
      = .ok ((List.range 2).map (fun k => some (cumSum 2 [[1, 2], [3, 4]] k)))
    ∧ (stackedCalls (arange 2) (4/5) [] (List.replicate 2 0)
          (mkEntries ["a", "b"] [[1, 2], [3, 4]])).map Prod.snd
      = .ok (cumSum 2 [[1, 2], [3, 4]] 2) :=
  plot_bar_stacked_bottom_accumulates ["a", "b"] [[1, 2], [3, 4]] 2 (4/5) []
    (by decide) rfl (by simp)

end EasyFig
